import Mathlib

/-!
Verification of the Poisson INAR(1) maximum-likelihood model
(`src/RIMA_POISSON.py`).

The source defines two classes, `INAR` and `PoissonINAR`, both direct
subclasses of `GenericLikelihoodModel`.  `PoissonINAR` carries the whole
model: `__init__` (construction), `nloglikeobs` (per-observation negative
log-likelihood of the INAR(1)-Poisson process) and `fit` (start-value
construction, parameter-name registration, delegation to the optimizer).

The embedding below translates those methods into pure Lean functions:
observed series are `List ℕ`, regressor rows are `List ℝ`, probabilities
are exact reals.  The scipy pmf calls (`poisson.pmf`, `binom.pmf`) are
embedded as their defining closed forms.
-/

/-- Logistic reparameterization of the thinning probability,
`rho = 1.0/(1.0+math.exp(-gamma))` (source line 35). -/
noncomputable def logistic (g : ℝ) : ℝ := 1.0 / (1.0 + Real.exp (-g))

/-- Dot product of a regressor row with the coefficient vector,
embedding the row-wise content of `X.dot(beta)` (source line 39). -/
noncomputable def dot (row beta : List ℝ) : ℝ := (List.zipWith (· * ·) row beta).sum

/-- Poisson probability mass function `poisson.pmf(k, mu)`
(scipy collaborator): `exp(-mu) * mu^k / k!`. -/
noncomputable def poissonPmf (k : ℕ) (mu : ℝ) : ℝ :=
  Real.exp (-mu) * mu ^ k / (Nat.factorial k : ℝ)

/-- Binomial probability mass function `binom.pmf(j, n, p)`
(scipy collaborator): `C(n,j) * p^j * (1-p)^(n-j)`; zero for `j > n`
because the binomial coefficient vanishes. -/
noncomputable def binomPmf (j n : ℕ) (p : ℝ) : ℝ :=
  (n.choose j : ℝ) * p ^ j * (1 - p) ^ (n - j)

/-- Poisson rate at time `t`: `mu = np.exp(X.dot(beta))` evaluated at
row `t` (source line 39). -/
noncomputable def muOf (X : List (List ℝ)) (beta : List ℝ) (t : ℕ) : ℝ :=
  Real.exp (dot (X.getD t []) beta)

/-- The inner convolution loop of `nloglikeobs` (source lines 48-51):
`prob_y_t = Σ_{j=0}^{min(y[t], y[t-1])} poisson.pmf(y[t]-j, mu[t]) * binom.pmf(j, y[t-1], rho)`. -/
noncomputable def convProb (y : List ℕ) (X : List (List ℝ)) (beta : List ℝ) (rho : ℝ) (t : ℕ) : ℝ :=
  ∑ j in Finset.range (min (y.getD t 0) (y.getD (t - 1) 0) + 1),
    poissonPmf (y.getD t 0 - j) (muOf X beta t) * binomPmf j (y.getD (t - 1) 0) rho

/-- The descending iteration order of the outer loop,
`range(len(y)-1, 0, -1)` = `[T-1, T-2, ..., 1]` (source line 47). -/
def timeIndices (T : ℕ) : List ℕ := ((List.range (T - 1)).map (· + 1)).reverse

namespace PoissonINAR

/-- Python error kinds observable from the modelled methods.
`typeError` is `TypeError` (raised by a `super(T, obj)` call whose `obj`
is not an instance of `T`); `invalidDomain` is the spec's `InvalidDomain`
construction error; `valueErrorAmbiguousTruth` is the `ValueError`
numpy raises when an array of size ≥ 2 is used as a branch condition. -/
inductive PyError where
  | typeError
  | invalidDomain
  | valueErrorAmbiguousTruth
deriving DecidableEq, Repr

/-- The Python classes involved in the source file's hierarchy:
`class INAR(GenericLikelihoodModel)` and
`class PoissonINAR(GenericLikelihoodModel)` (source lines 13, 19). -/
inductive PyClass where
  | genericLikelihoodModel
  | inar
  | poissonINAR
deriving DecidableEq, Repr

/-- Ancestor list (method resolution order, `object` omitted) of each
class, read off the two `class` statements of the source. -/
def ancestors : PyClass → List PyClass
  | .genericLikelihoodModel => [.genericLikelihoodModel]
  | .inar => [.inar, .genericLikelihoodModel]
  | .poissonINAR => [.poissonINAR, .genericLikelihoodModel]

/-- Python subclass test: `issubclass(c, d)` holds iff `d` occurs in the
ancestors of `c`. -/
def isSubclassOf (c d : PyClass) : Bool := (ancestors c).contains d

/-- Semantics of a two-argument `super(t, obj)` call: Python checks
`isinstance(obj, t)` and raises `TypeError` otherwise. `objClass` is the
dynamic class of `obj`. -/
def superBind (t objClass : PyClass) : Except PyError Unit :=
  if isSubclassOf objClass t then .ok () else .error .typeError

/-- A successfully constructed model instance: the data bound by
construction. -/
structure Model where
  endog : List ℤ
  exog : List (List ℝ)

/-- Embedding of `PoissonINAR.__init__` (source lines 20-21): it executes
`super(INAR, self).__init__(endog, exog, **kwds)` where the dynamic class
of `self` is `PoissonINAR`. -/
def init (endog : List ℤ) (exog : List (List ℝ)) : Except PyError Model :=
  match superBind .inar .poissonINAR with
  | .error e => .error e
  | .ok _ => .ok ⟨endog, exog⟩

/-- Embedding of `PoissonINAR.nloglikeobs` (source lines 23-55):
`gamma = params[-1]`, `beta = params[:-1]`, `rho = logistic(gamma)`,
`mu = exp(X.dot(beta))`, then for `t` from `len(y)-1` down to `1` append
`log(prob_y_t)`; the returned array is the negation. -/
noncomputable def nloglikeobs (y : List ℕ) (X : List (List ℝ)) (params : List ℝ) : List ℝ :=
  let gamma := (params.getLast?).getD 0
  let beta := params.dropLast
  let rho := logistic gamma
  (timeIndices y.length).map (fun t => -Real.log (convProb y X beta rho t))

/-- Mutable state of a model instance touched by `fit`: the parameter
name list `self.exog_names` and the column count `self.exog.shape[1]`. -/
structure FitState where
  exogNames : List String
  exogCols : ℕ
deriving Repr

/-- Embedding of `PoissonINAR.fit` (source lines 57-66).  It first runs
`self.exog_names.append('gamma')`, then evaluates the guard
`if start_params == None:`.  With `start_params = None` the guard is
true and the default start `np.append(np.ones(K), 1.0)` is built.  With
an explicit numpy vector the comparison is elementwise and using the
resulting array of size ≥ 2 as a branch condition raises
`ValueError: ambiguous truth value`; a size-≤1 array coerces to `False`
and the supplied vector is kept.  The second component is the start
vector handed to the external optimizer `super().fit`. -/
noncomputable def fit (st : FitState) (startParams : Option (List ℝ)) :
    FitState × Except PyError (List ℝ) :=
  let st' : FitState := { st with exogNames := st.exogNames ++ ["gamma"] }
  match startParams with
  | none => (st', .ok (List.replicate st.exogCols (1 : ℝ) ++ [1]))
  | some xs =>
      if 2 ≤ xs.length then (st', .error .valueErrorAmbiguousTruth)
      else (st', .ok xs)

end PoissonINAR

/-! ## Helper lemmas -/

theorem timeIndices_length (T : ℕ) : (timeIndices T).length = T - 1 := by
  simp [timeIndices]

theorem timeIndices_getElem (T i : ℕ) (h : i < (timeIndices T).length) :
    (timeIndices T)[i] = T - 1 - i := by
  have hi : i < T - 1 := by simpa [timeIndices] using h
  simp only [timeIndices, List.getElem_reverse, List.getElem_map, List.getElem_range,
    List.length_map, List.length_range]
  omega

namespace PoissonINAR

theorem nloglikeobs_length (y : List ℕ) (X : List (List ℝ)) (params : List ℝ) :
    (nloglikeobs y X params).length = y.length - 1 := by
  simp [nloglikeobs, timeIndices]

theorem nloglikeobs_getD (y : List ℕ) (X : List (List ℝ)) (params : List ℝ)
    (i : ℕ) (h : i < y.length - 1) :
    (nloglikeobs y X params).getD i 0 =
      -Real.log (convProb y X params.dropLast (logistic ((params.getLast?).getD 0))
        (y.length - 1 - i)) := by
  have hlen : i < (nloglikeobs y X params).length := by
    rw [nloglikeobs_length]; exact h
  rw [List.getD_eq_getElem _ _ hlen]
  have hmap : i < (timeIndices y.length).length := by
    simpa [nloglikeobs] using hlen
  simp only [nloglikeobs, List.getElem_map, timeIndices_getElem]

end PoissonINAR

theorem logistic_eq (g : ℝ) : logistic g = 1 / (1 + Real.exp (-g)) := by
  norm_num [logistic]

namespace PoissonINAR

/-- C1: for a bound series `y` of length `T ≥ 2`, regressors `X` and a
parameter vector `beta ++ [gamma]`, `nloglikeobs` returns exactly `T - 1`
values, one per `t ∈ 1..T-1` (the value for `t` sits at position
`T - 1 - t`), and the value for `t` equals
`-log(Σ_{j=0}^{min(y_t, y_{t-1})} Poisson_pmf(y_t - j; mu_t) * Binomial_pmf(j; y_{t-1}, rho))`
with `rho = 1/(1+exp(-gamma))` and `mu_t = exp(dot(X_t, beta))`; index 0
contributes no term. -/
theorem nloglikeobs_per_observation_terms (y : List ℕ) (X : List (List ℝ))
    (beta : List ℝ) (gamma : ℝ) (hT : 2 ≤ y.length) :
    (nloglikeobs y X (beta ++ [gamma])).length = y.length - 1 ∧
    ∀ t, 1 ≤ t → t < y.length →
      (nloglikeobs y X (beta ++ [gamma])).getD (y.length - 1 - t) 0 =
        -Real.log (∑ j in Finset.range (min (y.getD t 0) (y.getD (t - 1) 0) + 1),
          poissonPmf (y.getD t 0 - j) (Real.exp (dot (X.getD t []) beta)) *
          binomPmf j (y.getD (t - 1) 0) (1 / (1 + Real.exp (-gamma)))) := by
  refine ⟨nloglikeobs_length y X (beta ++ [gamma]), ?_⟩
  intro t h1 h2
  have hi : y.length - 1 - t < y.length - 1 := by omega
  rw [nloglikeobs_getD _ _ _ _ hi]
  have ht : y.length - 1 - (y.length - 1 - t) = t := by omega
  rw [ht, List.dropLast_concat, List.getLast?_concat]
  simp [convProb, muOf, logistic_eq]

/-- Witness for C1 at `y = [0,1]`, `X = [[0],[0]]`, `beta = [0]`,
`gamma = 0`: the hypothesis `2 ≤ T` holds and one term is produced. -/
theorem nloglikeobs_per_observation_terms_witness :
    2 ≤ ([0, 1] : List ℕ).length ∧
      (nloglikeobs [0, 1] [[0], [0]] ([0] ++ [(0 : ℝ)])).length = 1 :=
  ⟨by norm_num,
    by simpa using
      (nloglikeobs_per_observation_terms [0, 1] [[0], [0]] [0] 0 (by norm_num)).1⟩

/-- C5: when `y_{t-1} = 0` the convolution sum collapses to its single
`j = 0` term, `Binomial_pmf(0; 0, rho) = 1`, so the per-observation
probability equals `Poisson_pmf(y_t; mu_t)` and the per-observation
negative log-likelihood equals `-log(Poisson_pmf(y_t; mu_t))`. -/
theorem nloglikeobs_prev_zero (y : List ℕ) (X : List (List ℝ))
    (beta : List ℝ) (gamma : ℝ) (t : ℕ) (h1 : 1 ≤ t) (h2 : t < y.length)
    (h0 : y.getD (t - 1) 0 = 0) :
    convProb y X beta (logistic gamma) t = poissonPmf (y.getD t 0) (muOf X beta t) ∧
    (nloglikeobs y X (beta ++ [gamma])).getD (y.length - 1 - t) 0 =
      -Real.log (poissonPmf (y.getD t 0) (muOf X beta t)) := by
  have hconv : convProb y X beta (logistic gamma) t
      = poissonPmf (y.getD t 0) (muOf X beta t) := by
    simp only [convProb]
    rw [h0]
    simp [binomPmf]
  refine ⟨hconv, ?_⟩
  have hi : y.length - 1 - t < y.length - 1 := by omega
  rw [nloglikeobs_getD _ _ _ _ hi]
  have ht : y.length - 1 - (y.length - 1 - t) = t := by omega
  rw [ht, List.dropLast_concat, List.getLast?_concat, Option.getD_some, hconv]

/-- Witness for C5 at `y = [0, 2]`, `t = 1` (`y_0 = 0`), `X = [[0],[0]]`,
`beta = [0]`, `gamma = 0`. -/
theorem nloglikeobs_prev_zero_witness :
    convProb [0, 2] [[0], [0]] [0] (logistic 0) 1
        = poissonPmf (([0, 2] : List ℕ).getD 1 0) (muOf [[0], [0]] [0] 1) ∧
      (nloglikeobs [0, 2] [[0], [0]] ([0] ++ [(0 : ℝ)])).getD (([0, 2] : List ℕ).length - 1 - 1) 0
        = -Real.log (poissonPmf (([0, 2] : List ℕ).getD 1 0) (muOf [[0], [0]] [0] 1)) :=
  nloglikeobs_prev_zero [0, 2] [[0], [0]] [0] 0 1 (by norm_num) (by norm_num) (by norm_num)

end PoissonINAR

namespace PoissonINAR

/-- C6 counterexample: the claim as stated is false — the element at
position 0 of the returned sequence is NOT the negative log-likelihood
term for `t = 1`.  At `y = [0,1,0]`, `X = [[0],[0],[0]]`,
`params = [0] ++ [0]`, element 0 is the `t = 2` term `1 + log 2`, while
the `t = 1` term is `1`. -/
theorem nloglikeobs_not_forward_order :
    (nloglikeobs [0, 1, 0] [[0], [0], [0]] ([0] ++ [(0 : ℝ)])).getD 0 0 ≠
      -Real.log (convProb [0, 1, 0] [[0], [0], [0]] [0] (logistic 0) 1) := by
  have hL : (nloglikeobs [0, 1, 0] [[0], [0], [0]] ([0] ++ [(0 : ℝ)])).getD 0 0 =
      -Real.log (convProb [0, 1, 0] [[0], [0], [0]] [0] (logistic 0) 2) := by
    have h := nloglikeobs_getD [0, 1, 0] [[0], [0], [0]] ([0] ++ [(0 : ℝ)]) 0 (by norm_num)
    simpa using h
  rw [hL]
  have h2 : convProb [0, 1, 0] [[0], [0], [0]] [0] (logistic 0) 2
      = Real.exp (-1) * (1 / 2) := by
    simp [convProb, muOf, dot, poissonPmf, binomPmf, logistic, Real.exp_zero]
    norm_num
  have h1 : convProb [0, 1, 0] [[0], [0], [0]] [0] (logistic 0) 1
      = Real.exp (-1) := by
    simp [convProb, muOf, dot, poissonPmf, binomPmf, logistic, Real.exp_zero]
  rw [h1, h2]
  intro hEq
  have hlog : Real.log (Real.exp (-1) * (1 / 2)) = -1 + Real.log (1 / 2) := by
    rw [Real.log_mul (Real.exp_ne_zero _) (by norm_num), Real.log_exp]
  have hexp : Real.log (Real.exp (-1 : ℝ)) = -1 := Real.log_exp _
  have hhalf : Real.log (1 / 2 : ℝ) < 0 := Real.log_neg (by norm_num) (by norm_num)
  rw [hlog, hexp] at hEq
  linarith

/-- C6 (amended): the sequence returned by `nloglikeobs` is produced in
REVERSE time order — the element at position `i` is the negative
log-likelihood term for time index `t = T - 1 - i` (for `i = 0..T-2`),
mirroring the source's `range(len(y)-1, 0, -1)` loop. -/
theorem nloglikeobs_reverse_time_order (y : List ℕ) (X : List (List ℝ))
    (params : List ℝ) (i : ℕ) (h : i < y.length - 1) :
    (nloglikeobs y X params).getD i 0 =
      -Real.log (convProb y X params.dropLast (logistic ((params.getLast?).getD 0))
        (y.length - 1 - i)) :=
  nloglikeobs_getD y X params i h

/-- Witness for the amended C6 at `y = [0,1,0]`, `params = [0,0]`,
`i = 0`: element 0 is the `t = 2` term. -/
theorem nloglikeobs_reverse_time_order_witness :
    (nloglikeobs [0, 1, 0] [[0], [0], [0]] [0, 0]).getD 0 0 =
      -Real.log (convProb [0, 1, 0] [[0], [0], [0]] (([0, 0] : List ℝ).dropLast)
        (logistic ((([0, 0] : List ℝ).getLast?).getD 0))
        (([0, 1, 0] : List ℕ).length - 1 - 0)) :=
  nloglikeobs_reverse_time_order [0, 1, 0] [[0], [0], [0]] [0, 0] 0 (by norm_num)

end PoissonINAR

/-- C9: the logistic reparameterization `rho = 1/(1+exp(-gamma))` used in
`nloglikeobs` satisfies `0 < rho < 1` for every real `gamma`, is strictly
monotonically increasing, maps `gamma = 0` to `rho = 1/2`, tends to 1 as
`gamma → +∞` and to 0 as `gamma → -∞`. -/
theorem logistic_props :
    (∀ g : ℝ, 0 < logistic g ∧ logistic g < 1) ∧
    StrictMono logistic ∧
    logistic 0 = 1 / 2 ∧
    Filter.Tendsto logistic Filter.atTop (nhds 1) ∧
    Filter.Tendsto logistic Filter.atBot (nhds 0) := by
  have hpos : ∀ g : ℝ, 0 < 1 + Real.exp (-g) := fun g => by positivity
  refine ⟨?_, ?_, ?_, ?_, ?_⟩
  · intro g
    constructor
    · rw [logistic_eq]; positivity
    · rw [logistic_eq, div_lt_one (hpos g)]
      have := Real.exp_pos (-g)
      linarith
  · intro a b hab
    rw [logistic_eq, logistic_eq, div_lt_div_iff₀ (hpos a) (hpos b)]
    have : Real.exp (-b) < Real.exp (-a) := Real.exp_lt_exp.mpr (by linarith)
    linarith
  · rw [logistic_eq]
    simp [Real.exp_zero]
    norm_num
  · have h1 : Filter.Tendsto (fun g : ℝ => Real.exp (-g)) Filter.atTop (nhds 0) :=
      Real.tendsto_exp_atBot.comp Filter.tendsto_neg_atTop_atBot
    have h2 : Filter.Tendsto (fun g : ℝ => 1 + Real.exp (-g)) Filter.atTop (nhds 1) := by
      simpa using Filter.Tendsto.const_add 1 h1
    have h3 : Filter.Tendsto (fun g : ℝ => 1 / (1 + Real.exp (-g)))
        Filter.atTop (nhds (1 / 1)) :=
      Filter.Tendsto.div tendsto_const_nhds h2 (by norm_num)
    have hfun : logistic = fun g : ℝ => 1 / (1 + Real.exp (-g)) := funext logistic_eq
    rw [hfun]
    simpa using h3
  · have h1 : Filter.Tendsto (fun g : ℝ => Real.exp (-g)) Filter.atBot Filter.atTop :=
      Real.tendsto_exp_atTop.comp Filter.tendsto_neg_atBot_atTop
    have h2 : Filter.Tendsto (fun g : ℝ => 1 + Real.exp (-g)) Filter.atBot Filter.atTop :=
      Filter.tendsto_atTop_add_const_left _ 1 h1
    have h3 := h2.inv_tendsto_atTop
    have hfun : logistic = fun g : ℝ => 1 / (1 + Real.exp (-g)) := funext logistic_eq
    rw [hfun]
    simpa [one_div] using h3

namespace PoissonINAR

/-- C4: `PoissonINAR.__init__` calls `super(INAR, self).__init__` while
`self` is a `PoissonINAR`, which is not a subclass of `INAR`, so
construction raises `TypeError` for every input; no instance is ever
produced through the public constructor. -/
theorem init_always_typeError (endog : List ℤ) (exog : List (List ℝ)) :
    init endog exog = Except.error PyError.typeError := rfl

/-- C7 counterexample: construction with the observed value `-1` fails
with `TypeError`, not `InvalidDomain` — no domain validation exists. -/
theorem init_neg_one_typeError_not_invalidDomain :
    init [-1] [[1]] = Except.error PyError.typeError ∧
      PyError.typeError ≠ PyError.invalidDomain :=
  ⟨rfl, by decide⟩

/-- C7 (amended): construction with an observed series containing `-1`
fails and produces no model instance, but the error is the `TypeError`
raised by the mismatched `super(INAR, self)` call, not `InvalidDomain`;
no observed-value domain check is performed. -/
theorem init_neg_one_fails (endog : List ℤ) (exog : List (List ℝ))
    (h : (-1 : ℤ) ∈ endog) :
    init endog exog = Except.error PyError.typeError := rfl

/-- Witness for the amended C7 at `endog = [-1]`. -/
theorem init_neg_one_fails_witness :
    (-1 : ℤ) ∈ ([-1] : List ℤ) ∧ init [-1] [[1]] = Except.error PyError.typeError :=
  ⟨by decide, init_neg_one_fails [-1] [[1]] (by decide)⟩

/-- C3: the source bug — `fit` executes `self.exog_names.append('gamma')`
unconditionally on every call, so a first call yields `K+1` names but a
second call on the same instance yields `K+2`, violating the append-once
invariant the spec requires. -/
theorem fit_twice_duplicates_gamma (st : FitState) :
    (fit st none).1.exogNames.length = st.exogNames.length + 1 ∧
    (fit (fit st none).1 none).1.exogNames.length = st.exogNames.length + 2 ∧
    st.exogNames.length + 2 ≠ st.exogNames.length + 1 := by
  refine ⟨?_, ?_, by omega⟩ <;> simp [fit]

/-- C8: with `startParams` unset, the start vector handed to the external
optimizer has `K+1` entries, the first `K` all `1.0` and the last `1.0`. -/
theorem fit_default_start (st : FitState) :
    ∃ p, (fit st none).2 = Except.ok p ∧ p.length = st.exogCols + 1 ∧
      (∀ i, i < st.exogCols → p.getD i 0 = 1) ∧ p.getLastD 0 = 1 := by
  refine ⟨List.replicate st.exogCols (1 : ℝ) ++ [1], rfl, by simp, ?_, by simp⟩
  intro i hi
  have hlen : i < (List.replicate st.exogCols (1 : ℝ) ++ [1]).length := by
    simp; omega
  rw [List.getD_eq_getElem _ _ hlen]
  rw [List.getElem_append_left (by simpa using hi)]
  simp

/-- C10: supplying an explicit `startParams` vector with two or more
entries makes the guard `start_params == None` evaluate elementwise, and
branching on the resulting size-≥2 boolean array raises the
ambiguous-truth-value `ValueError`, so `fit` fails; only the default
start path is usable. -/
theorem fit_explicit_start_ambiguous (st : FitState) (xs : List ℝ)
    (h : 2 ≤ xs.length) :
    (fit st (some xs)).2 = Except.error PyError.valueErrorAmbiguousTruth := by
  simp [fit, h]

/-- Witness for C10 at `xs = [1, 1]`, `K = 1`. -/
theorem fit_explicit_start_ambiguous_witness :
    (2 : ℕ) ≤ ([1, 1] : List ℝ).length ∧
      (fit ⟨["const"], 1⟩ (some [1, 1])).2 = Except.error PyError.valueErrorAmbiguousTruth :=
  ⟨by norm_num, fit_explicit_start_ambiguous ⟨["const"], 1⟩ [1, 1] (by norm_num)⟩

end PoissonINAR

/-! ## Positivity of the convolution sum in exact arithmetic

In exact real arithmetic every per-observation probability computed by
`nloglikeobs` is strictly positive (`mu_t = exp(...) > 0` and
`rho = logistic gamma ∈ (0,1)`), so `math.log` never sees a non-positive
argument here and the total `Real.log` is a faithful embedding of it.
The non-positive/underflow situation the spec's clamp requirement targets
arises only in IEEE-754 floating point, where the source (line 52) calls
`math.log(prob_y_t)` with no clamp and a zero `prob_y_t` raises
`ValueError: math domain error`. -/

theorem poissonPmf_pos (k : ℕ) (mu : ℝ) (h : 0 < mu) : 0 < poissonPmf k mu := by
  unfold poissonPmf
  apply div_pos (mul_pos (Real.exp_pos _) (pow_pos h _))
  exact_mod_cast Nat.factorial_pos _

theorem binomPmf_nonneg (j n : ℕ) (p : ℝ) (h0 : 0 ≤ p) (h1 : p ≤ 1) :
    0 ≤ binomPmf j n p := by
  unfold binomPmf
  have h2 : (0 : ℝ) ≤ 1 - p := by linarith
  positivity

theorem binomPmf_zero_pos (n : ℕ) (p : ℝ) (h1 : p < 1) : 0 < binomPmf 0 n p := by
  unfold binomPmf
  simp only [Nat.choose_zero_right, Nat.cast_one, pow_zero, one_mul, Nat.sub_zero]
  exact pow_pos (by linarith) _

theorem convProb_pos (y : List ℕ) (X : List (List ℝ)) (beta : List ℝ) (rho : ℝ)
    (t : ℕ) (h0 : 0 < rho) (h1 : rho < 1) :
    0 < convProb y X beta rho t := by
  unfold convProb
  apply Finset.sum_pos'
  · intro j hj
    exact mul_nonneg (poissonPmf_pos _ _ (Real.exp_pos _)).le
      (binomPmf_nonneg _ _ _ h0.le h1.le)
  · exact ⟨0, Finset.mem_range.mpr (by omega),
      mul_pos (poissonPmf_pos _ _ (Real.exp_pos _)) (binomPmf_zero_pos _ _ h1)⟩

theorem convProb_logistic_pos (y : List ℕ) (X : List (List ℝ)) (beta : List ℝ)
    (gamma : ℝ) (t : ℕ) : 0 < convProb y X beta (logistic gamma) t := by
  have h0 : 0 < logistic gamma := by rw [logistic_eq]; positivity
  have h1 : logistic gamma < 1 := by
    rw [logistic_eq, div_lt_one (by positivity)]
    have := Real.exp_pos (-gamma)
    linarith
  exact convProb_pos y X beta (logistic gamma) t h0 h1

namespace PoissonINAR

/-- Witness for C3 at an instance with one regressor column
(`exog_names = ["const"]`, `K = 1`). -/
theorem fit_twice_duplicates_gamma_witness :
    (fit ⟨["const"], 1⟩ none).1.exogNames.length = 1 + 1 ∧
    (fit (fit ⟨["const"], 1⟩ none).1 none).1.exogNames.length = 1 + 2 ∧
    (1 : ℕ) + 2 ≠ 1 + 1 :=
  fit_twice_duplicates_gamma ⟨["const"], 1⟩

/-- Witness for C4 at `endog = [0]`, `exog = [[1]]`. -/
theorem init_always_typeError_witness :
    init [0] [[1]] = Except.error PyError.typeError :=
  init_always_typeError [0] [[1]]

/-- Witness for C8 at an instance with `K = 1` regressor column. -/
theorem fit_default_start_witness :
    ∃ p, (fit ⟨["const"], 1⟩ none).2 = Except.ok p ∧ p.length = 1 + 1 ∧
      (∀ i, i < 1 → p.getD i 0 = 1) ∧ p.getLastD 0 = 1 :=
  fit_default_start ⟨["const"], 1⟩

end PoissonINAR
